import Mathlib

/-!
Verification development for the profile-to-recommendation pipeline of the
future-fit-finder repository.

The two edge functions under scrutiny are
`supabase/functions/recommend/index.ts` (recommendation synthesis) and
`supabase/functions/parse-cv/index.ts` (profile extraction).  Each handler is
embedded as a pure function from a `World` record — the request body fields, the
database read result, the configuration, and the upstream model response, i.e.
everything the handler observes — to an `Outcome` record carrying the HTTP
status, the response body, and the observable trace facts the specification
talks about (whether the generative model was called, whether the secondary
free-text decode path was attempted, which payload was decoded).

JavaScript strings are embedded as `List Char`.  `JSON.parse` is a platform
builtin, so it is modelled here by an executable recursive-descent parser
`jsonParse` over a `Json` value type covering the shapes these handlers
exchange: null, booleans, strings (with the usual escapes), arrays and objects.
Numeric literals and unicode escapes are outside the modelled fragment; none of
the payloads the claims quantify over contain them.  `JSON.stringify` on parsed
values is modelled by `render`.
-/

namespace FFF

/-! ### Character constants

Brace, quote, backslash and backtick characters are named once here and used
everywhere, both in the parser and in the fence-stripping logic of the
secondary decode path. -/

def lbrace : Char := Char.ofNat 123

def rbrace : Char := Char.ofNat 125

def dquote : Char := Char.ofNat 34

def bslash : Char := Char.ofNat 92

def tick : Char := Char.ofNat 96

/-! ### The Json value model -/

/-- Model of the JavaScript values produced by `JSON.parse` in the handlers:
null, booleans, strings, arrays and objects.  Objects keep their field list as
parsed; property lookup (`jget`) takes the last occurrence of a repeated name,
as `JSON.parse` does. -/
inductive Json where
  | null : Json
  | bool (b : Bool) : Json
  | str (s : List Char) : Json
  | arr (xs : List Json) : Json
  | obj (fields : List (List Char × Json)) : Json
deriving Repr

/-- JavaScript truthiness of a `Json` value: `null`, `false` and the empty
string are falsy; every other modelled value (including the empty array and
the empty object) is truthy. -/
def jsTruthy : Json → Bool
  | Json.null => false
  | Json.bool b => b
  | Json.str s => !s.isEmpty
  | Json.arr _ => true
  | Json.obj _ => true

/-- `Array.isArray` on a modelled value. -/
def isArr : Json → Bool
  | Json.arr _ => true
  | _ => false

/-- JavaScript `Array.prototype.join` with the given separator: the empty
list joins to the empty string. -/
def joinWith (sep : List Char) : List (List Char) → List Char
  | [] => []
  | [p] => p
  | p :: ps => p ++ sep ++ joinWith sep ps

/-- Last-occurrence lookup in an object field list, matching the way
`JSON.parse` collapses repeated keys (the last one wins). -/
def lookupLast (k : List Char) : List (List Char × Json) → Option Json
  | [] => none
  | (k', v) :: rest =>
    match lookupLast k rest with
    | some r => some r
    | none => if k' = k then some v else none

/-- JavaScript property access `v.k` on a parsed value: defined on objects,
`undefined` (here `none`) on every other value. -/
def jget (v : Json) (k : List Char) : Option Json :=
  match v with
  | Json.obj fs => lookupLast k fs
  | _ => none

/-- The `recommendations` key. -/
def recsKey : List Char := "recommendations".toList

mutual

/-- JavaScript string coercion of a value, as performed by a template literal:
strings verbatim, `null`/booleans by their literal names, arrays by joining
the coercions of their elements with commas, objects as `[object Object]`. -/
def jsToString : Json → List Char
  | Json.null => "null".toList
  | Json.bool true => "true".toList
  | Json.bool false => "false".toList
  | Json.str s => s
  | Json.arr xs => joinWith (",".toList) (jsToStringList xs)
  | Json.obj _ => "[object Object]".toList

/-- Coercions of the elements of an array, in order.  `Array.prototype.join`
converts a null (or undefined) element to the empty string — unlike the
top-level coercion, which renders null as its literal name — so a null
element contributes nothing between its separators. -/
def jsToStringList : List Json → List (List Char)
  | [] => []
  | Json.null :: xs => [] :: jsToStringList xs
  | x :: xs => jsToString x :: jsToStringList xs
end

mutual

/-- Size of a value; used only to budget the fuel of the parser in proofs. -/
def sizeJ : Json → Nat
  | Json.null => 1
  | Json.bool _ => 1
  | Json.str _ => 1
  | Json.arr xs => 1 + sizeItems xs
  | Json.obj fs => 1 + sizeFields fs

/-- Combined size of array elements. -/
def sizeItems : List Json → Nat
  | [] => 0
  | x :: xs => 1 + sizeJ x + sizeItems xs

/-- Combined size of object fields. -/
def sizeFields : List (List Char × Json) → Nat
  | [] => 0
  | (_, v) :: fs => 1 + sizeJ v + sizeFields fs

end

/-! ### Model of `JSON.parse`

An executable recursive-descent parser.  The mutual group recurses on an
explicit fuel argument; `jsonParse` supplies fuel larger than the input length,
which is always sufficient because every nesting level consumes input. -/

/-- Whitespace characters skipped between JSON tokens. -/
def isWs (c : Char) : Bool := c = ' ' || c = '\n' || c = '\t' || c = '\r'

/-- Drop leading JSON whitespace. -/
def skipWs (l : List Char) : List Char := l.dropWhile isWs

/-- Decode one escape character following a backslash inside a string
literal. -/
def unescape (c : Char) : Option Char :=
  if c = dquote then some dquote
  else if c = bslash then some bslash
  else if c = '/' then some '/'
  else if c = 'n' then some '\n'
  else if c = 't' then some '\t'
  else if c = 'r' then some '\r'
  else if c = 'b' then some (Char.ofNat 8)
  else if c = 'f' then some (Char.ofNat 12)
  else none

/-- Parse the body of a string literal, the opening quote already consumed.
Returns the decoded characters and the input following the closing quote. -/
def parseStringBody : List Char → Option (List Char × List Char)
  | [] => none
  | c :: rest =>
    if c = dquote then some ([], rest)
    else if c = bslash then
      match rest with
      | [] => none
      | e :: rest2 =>
        match unescape e with
        | none => none
        | some u =>
          match parseStringBody rest2 with
          | none => none
          | some (s, r) => some (u :: s, r)
    else
      match parseStringBody rest with
      | none => none
      | some (s, r) => some (c :: s, r)

mutual

/-- Parse one JSON value from the input (leading whitespace allowed),
returning the value and the unconsumed remainder. -/
def parseValue : Nat → List Char → Option (Json × List Char)
  | 0, _ => none
  | Nat.succ f, input =>
    match skipWs input with
    | [] => none
    | c :: rest =>
      if c = lbrace then
        match skipWs rest with
        | [] => none
        | c2 :: rest2 =>
          if c2 = rbrace then some (Json.obj [], rest2)
          else
            match parseFields f (c2 :: rest2) with
            | none => none
            | some (fs, r) => some (Json.obj fs, r)
      else if c = '[' then
        match skipWs rest with
        | [] => none
        | c2 :: rest2 =>
          if c2 = ']' then some (Json.arr [], rest2)
          else
            match parseItems f (c2 :: rest2) with
            | none => none
            | some (xs, r) => some (Json.arr xs, r)
      else if c = dquote then
        match parseStringBody rest with
        | none => none
        | some (s, r) => some (Json.str s, r)
      else if List.isPrefixOf ("null".toList) (c :: rest) then
        some (Json.null, (c :: rest).drop 4)
      else if List.isPrefixOf ("true".toList) (c :: rest) then
        some (Json.bool true, (c :: rest).drop 4)
      else if List.isPrefixOf ("false".toList) (c :: rest) then
        some (Json.bool false, (c :: rest).drop 5)
      else none

/-- Parse a non-empty comma-separated field list of an object, ending at the
closing brace (which is consumed). -/
def parseFields : Nat → List Char → Option (List (List Char × Json) × List Char)
  | 0, _ => none
  | Nat.succ f, input =>
    match skipWs input with
    | [] => none
    | c :: rest =>
      if c = dquote then
        match parseStringBody rest with
        | none => none
        | some (k, r1) =>
          match skipWs r1 with
          | [] => none
          | c2 :: r2 =>
            if c2 = ':' then
              match parseValue f r2 with
              | none => none
              | some (v, r3) =>
                match skipWs r3 with
                | [] => none
                | c3 :: r4 =>
                  if c3 = ',' then
                    match parseFields f r4 with
                    | none => none
                    | some (fs, r5) => some ((k, v) :: fs, r5)
                  else if c3 = rbrace then some ([(k, v)], r4)
                  else none
            else none
      else none

/-- Parse a non-empty comma-separated element list of an array, ending at the
closing bracket (which is consumed). -/
def parseItems : Nat → List Char → Option (List Json × List Char)
  | 0, _ => none
  | Nat.succ f, input =>
    match parseValue f input with
    | none => none
    | some (v, r1) =>
      match skipWs r1 with
      | [] => none
      | c :: r2 =>
        if c = ',' then
          match parseItems f r2 with
          | none => none
          | some (xs, r3) => some (v :: xs, r3)
        else if c = ']' then some ([v], r2)
        else none

end

/-- Model of `JSON.parse`: parse one value and insist that nothing but
whitespace follows; `none` models the thrown `SyntaxError`. -/
def jsonParse (s : List Char) : Option Json :=
  match parseValue (s.length + 1) s with
  | none => none
  | some (v, rem) => if skipWs rem = [] then some v else none

/-! ### Model of `JSON.stringify` on parsed values -/

/-- Escape one character for inclusion in a rendered string literal. -/
def escapeChar (c : Char) : List Char :=
  if c = dquote then [bslash, dquote]
  else if c = bslash then [bslash, bslash]
  else if c = '\n' then [bslash, 'n']
  else if c = '\t' then [bslash, 't']
  else if c = '\r' then [bslash, 'r']
  else [c]

/-- Escape a whole string body. -/
def escapeStr : List Char → List Char
  | [] => []
  | c :: rest => escapeChar c ++ escapeStr rest

mutual

/-- Compact JSON rendering of a value, mirroring `JSON.stringify` (no added
whitespace). -/
def render : Json → List Char
  | Json.null => "null".toList
  | Json.bool true => "true".toList
  | Json.bool false => "false".toList
  | Json.str s => dquote :: (escapeStr s ++ [dquote])
  | Json.arr [] => "[]".toList
  | Json.arr (x :: xs) => '[' :: (render x ++ renderArrTail xs)
  | Json.obj [] => [lbrace, rbrace]
  | Json.obj (f :: fs) => lbrace :: (renderField f ++ renderObjTail fs)

/-- Render the remaining array elements, each preceded by a comma, then the
closing bracket. -/
def renderArrTail : List Json → List Char
  | [] => [']']
  | x :: xs => ',' :: (render x ++ renderArrTail xs)

/-- Render one object field as a quoted key, a colon and the value. -/
def renderField : List Char × Json → List Char
  | (k, v) => dquote :: (escapeStr k ++ [dquote, ':'] ++ render v)

/-- Render the remaining object fields, each preceded by a comma, then the
closing brace. -/
def renderObjTail : List (List Char × Json) → List Char
  | [] => [rbrace]
  | f :: fs => ',' :: (renderField f ++ renderObjTail fs)

end

/-! ### String utilities used by the handlers -/

/-- Test whether a list starts with three backticks, the code-fence
delimiter. -/
def startsTicks : List Char → Bool
  | c1 :: c2 :: c3 :: _ => c1 = tick && c2 = tick && c3 = tick
  | _ => false

/-- Model of JavaScript `s.split(sep)` for the fixed separator of three
backticks: scan left to right, cutting at every non-overlapping occurrence.
The accumulator holds the current piece reversed. -/
def splitTicks : List Char → List Char → List (List Char)
  | c1 :: c2 :: c3 :: rest, acc =>
    if c1 = tick && c2 = tick && c3 = tick then acc.reverse :: splitTicks rest []
    else splitTicks (c2 :: c3 :: rest) (c1 :: acc)
  | c :: rest, acc => splitTicks rest (c :: acc)
  | [], acc => [acc.reverse]

/-- Whether a list contains three consecutive backticks anywhere. -/
def hasTripleTick : List Char → Bool
  | c1 :: c2 :: c3 :: rest =>
    (c1 = tick && c2 = tick && c3 = tick) || hasTripleTick (c2 :: c3 :: rest)
  | _ => false

/-- Model of JavaScript `String.prototype.trim`: drop whitespace from both
ends. -/
def jsTrim (l : List Char) : List Char :=
  ((l.dropWhile isWs).reverse.dropWhile isWs).reverse

/-- Split a text into its lines at newline characters, as JavaScript
`s.split("\n")` does: the empty text has one empty line. -/
def splitLines : List Char → List (List Char)
  | [] => [[]]
  | c :: rest =>
    if c = '\n' then [] :: splitLines rest
    else
      match splitLines rest with
      | [] => [[c]]
      | l :: ls => (c :: l) :: ls

/-! ### The profile summary (recommend/index.ts, profileSummary)

`Object.entries(profile).filter(([_, v]) => v).map(([k, v]) => k + ": " + v)
.join("\n")`: keep the fields with truthy values, render each as a
`key: value` line with the value coerced to a string, and join the lines with
newlines. -/

/-- One rendered entry line: the key, a colon and a space, then the coerced
value. -/
def entryLine (p : List Char × Json) : List Char :=
  p.1 ++ (": ".toList) ++ jsToString p.2

/-- The profile summary string built by the recommend handler from the
entries of the profile object. -/
def profileSummary (entries : List (List Char × Json)) : List Char :=
  joinWith ("\n".toList)
    ((entries.filter (fun p => jsTruthy p.2)).map entryLine)

/-! ### Catalogue construction (recommend/index.ts, lines 233-260)

The database row shape mirrors the selected columns; each text column is a
string, with JavaScript truthiness deciding whether the labelled line is
included in the block. -/

/-- One row of the `programmes` table as selected by the handler. -/
structure ProgrammeRow where
  title : List Char
  category : List Char
  description : List Char
  url : List Char
  fee : List Char
  format : List Char
  location : List Char
  start_date : List Char
  target_audience : List Char
  why_this_programme : List Char
  key_topics : List Char
  full_text : List Char
deriving Repr

/-- The labelled block built for one programme row: the title line always,
then one line per non-empty field, in the source's order. -/
def programmeBlock (p : ProgrammeRow) : List Char :=
  let parts : List (List Char) :=
    [("PROGRAMME: ".toList) ++ p.title]
    ++ (if !p.category.isEmpty then [("Category: ".toList) ++ p.category] else [])
    ++ (if !p.description.isEmpty then [("Description: ".toList) ++ p.description] else [])
    ++ (if !p.fee.isEmpty then [("Fee: ".toList) ++ p.fee] else [])
    ++ (if !p.format.isEmpty then [("Format: ".toList) ++ p.format] else [])
    ++ (if !p.location.isEmpty then [("Location: ".toList) ++ p.location] else [])
    ++ (if !p.start_date.isEmpty then [("Start date: ".toList) ++ p.start_date] else [])
    ++ (if !p.target_audience.isEmpty then [("Target audience: ".toList) ++ p.target_audience] else [])
    ++ (if !p.why_this_programme.isEmpty then [("Why this programme: ".toList) ++ p.why_this_programme] else [])
    ++ (if !p.url.isEmpty then [("URL: ".toList) ++ p.url] else [])
  joinWith ("\n".toList) parts

/-- The whole catalogue text: blocks joined with the separator line. -/
def buildCatalogue (ps : List ProgrammeRow) : List Char :=
  joinWith ("\n\n---\n\n".toList) (ps.map programmeBlock)

/-! ### The upstream model response and the database read -/

/-- One tool call on the model response; only the argument payload (a JSON
text) is consumed by the handlers. -/
structure ToolCall where
  arguments : List Char
deriving Repr

/-- The message of the first choice of the model response:
`data.choices?.[0]?.message`.  An absent or empty `tool_calls` array is
modelled by the empty list; `content` is `none` when absent. -/
structure Message where
  tool_calls : List ToolCall
  content : Option (List Char)
deriving Repr

/-- The upstream HTTP response as the handlers observe it: `ok` and `status`
from the fetch response, and the first choice's message when the body is
consulted (`none` models every absent link of the optional chain). -/
structure AiResponse where
  ok : Bool
  status : Nat
  message : Option Message
deriving Repr

/-- The supabase read result: an error flag and the returned rows
(`none` models a null `data`). -/
structure DbResult where
  error : Bool
  data : Option (List ProgrammeRow)
deriving Repr

/-- `message?.tool_calls?.[0]` — the first tool call, when there is one. -/
def firstToolCall (msg : Option Message) : Option ToolCall :=
  msg.bind fun m => m.tool_calls.head?

/-! ### Response messages (string constants of the two handlers) -/

/-- Stands for the message of the `SyntaxError` thrown by `JSON.parse` on
malformed input; the exact platform text is irrelevant to every claim. -/
def jsonSyntaxMsg : List Char := "Unexpected token in JSON".toList

/-- Stands for the message of the `TypeError` raised when `split` yields no
second piece; the branch is unreachable under the fence guard. -/
def typeErrorMsg : List Char := "Cannot read properties of undefined".toList

def noProfileMsg : List Char := "No profile provided".toList

def catalogueUnavailableMsg : List Char :=
  "No programme data available. Please seed the database or provide catalogue.".toList

def apiKeyMsg : List Char := "LOVABLE_API_KEY not configured".toList

def rateLimitMsg : List Char :=
  "Rate limit exceeded. Please try again in a moment.".toList

def quotaMsg : List Char := "AI usage limit reached. Please add credits.".toList

def noRecsMsg : List Char := "No recommendations returned from AI".toList

def noProfileReturnedMsg : List Char :=
  "No structured profile returned from AI".toList

def noFileMsg : List Char := "No file provided".toList

/-- Message of the generic gateway failure: the template literal
interpolating the upstream status. -/
def gatewayErrMsg (status : Nat) : List Char :=
  ("AI gateway error: ".toList) ++ Nat.toDigits 10 status

/-! ### The recommend handler (recommend/index.ts, second revision) -/

/-- A response body: either the single error object or a JSON payload. -/
inductive RespBody where
  | errObj (msg : List Char) : RespBody
  | jsonOut (v : Json) : RespBody
deriving Repr

/-- Everything the recommend handler observes: whether the request body
parses, the `profile` field (as the entry list of the profile object; `none`
models an absent or falsy profile), the `catalogue` field, the database read,
the presence of the API key, and the upstream response. -/
structure RecWorld where
  bodyParses : Bool
  profile : Option (List (List Char × Json))
  fallbackCatalogue : Option (List Char)
  db : DbResult
  hasApiKey : Bool
  ai : AiResponse

/-- The observable outcome of one recommend invocation: the HTTP response
plus the trace facts the specification quantifies over. -/
structure RecOutcome where
  status : Nat
  body : RespBody
  modelCalled : Bool
  secondaryAttempted : Bool
  decoded : Option Json
deriving Repr

/-- The inline fallback, when supplied and truthy. -/
def fallbackOr (fb : Option (List Char)) : Option (List Char) :=
  match fb with
  | some s => if s.isEmpty then none else some s
  | none => none

/-- Catalogue resolution, lines 233-260: use the database rows when the read
succeeded with at least one row, otherwise the truthy inline fallback,
otherwise fail (the thrown error, modelled as `none`). -/
def resolveCatalogue (db : DbResult) (fb : Option (List Char)) : Option (List Char) :=
  if db.error = true then fallbackOr fb
  else
    match db.data with
    | some ps => if 0 < ps.length then some (buildCatalogue ps) else fallbackOr fb
    | none => fallbackOr fb

/-- Result of the secondary free-text decode, lines 407-417: the parsed
value, a parse failure (caught and rethrown as the format error), or the
unreachable `TypeError` of a missing second split piece. -/
inductive ContentDecode where
  | ok (v : Json) : ContentDecode
  | parseFail : ContentDecode
  | typeError : ContentDecode
deriving Repr

/-- The secondary free-text decode: trim the content; if it opens with a
code fence, take the piece after the first fence, drop a leading `json` tag,
and parse; otherwise parse the trimmed content directly. -/
def decodeContent (raw : List Char) : ContentDecode :=
  let content := jsTrim raw
  if startsTicks content then
    match (splitTicks content []).get? 1 with
    | none => ContentDecode.typeError
    | some piece =>
      let piece2 := if List.isPrefixOf ("json".toList) piece then piece.drop 4 else piece
      match jsonParse piece2 with
      | some v => ContentDecode.ok v
      | none => ContentDecode.parseFail
  else
    match jsonParse content with
    | some v => ContentDecode.ok v
    | none => ContentDecode.parseFail

/-- Post-parse validation, lines 422-426: the parsed result must have a
truthy `recommendations` property that is an array. -/
def validRecs (v : Json) : Bool :=
  match jget v recsKey with
  | some r => jsTruthy r && isArr r
  | none => false

/-- Validation and the success response, with the trace recording which
decode path produced the value. -/
def recValidate (v : Json) (sec : Bool) : RecOutcome :=
  if validRecs v then
    { status := 200, body := RespBody.jsonOut v, modelCalled := true,
      secondaryAttempted := sec, decoded := some v }
  else
    { status := 500, body := RespBody.errObj noRecsMsg, modelCalled := true,
      secondaryAttempted := sec, decoded := some v }

/-- The two-path decode of the model message, lines 397-426: primary path on
the first tool call, secondary path on literal content, otherwise the format
error. -/
def recDecodePhase (msg : Option Message) : RecOutcome :=
  match firstToolCall msg with
  | some tc =>
    match jsonParse tc.arguments with
    | none =>
      { status := 500, body := RespBody.errObj jsonSyntaxMsg, modelCalled := true,
        secondaryAttempted := false, decoded := none }
    | some v => recValidate v false
  | none =>
    match msg with
    | none =>
      { status := 500, body := RespBody.errObj noRecsMsg, modelCalled := true,
        secondaryAttempted := false, decoded := none }
    | some m =>
      match m.content with
      | some s =>
        if s.isEmpty then
          { status := 500, body := RespBody.errObj noRecsMsg, modelCalled := true,
            secondaryAttempted := false, decoded := none }
        else
          match decodeContent s with
          | ContentDecode.ok v => recValidate v true
          | ContentDecode.parseFail =>
            { status := 500, body := RespBody.errObj noRecsMsg, modelCalled := true,
              secondaryAttempted := true, decoded := none }
          | ContentDecode.typeError =>
            { status := 500, body := RespBody.errObj typeErrorMsg, modelCalled := true,
              secondaryAttempted := true, decoded := none }
      | none =>
        { status := 500, body := RespBody.errObj noRecsMsg, modelCalled := true,
          secondaryAttempted := false, decoded := none }

/-- The upstream call and its error mapping, lines 303-389: 429 and 402 get
their dedicated responses, any other non-ok status the thrown gateway error;
an ok response proceeds to the decode. -/
def recModelPhase (ai : AiResponse) : RecOutcome :=
  if ai.ok = false then
    if ai.status = 429 then
      { status := 429, body := RespBody.errObj rateLimitMsg, modelCalled := true,
        secondaryAttempted := false, decoded := none }
    else if ai.status = 402 then
      { status := 402, body := RespBody.errObj quotaMsg, modelCalled := true,
        secondaryAttempted := false, decoded := none }
    else
      { status := 500, body := RespBody.errObj (gatewayErrMsg ai.status), modelCalled := true,
        secondaryAttempted := false, decoded := none }
  else recDecodePhase ai.message

/-- The recommend handler, lines 203-443 (CORS preflight aside): body parse,
profile presence check, catalogue resolution, API key check, model call,
decode, validation.  Every thrown error surfaces as the 500 error object of
the catch-all. -/
def recommendHandler (w : RecWorld) : RecOutcome :=
  if w.bodyParses = false then
    { status := 500, body := RespBody.errObj jsonSyntaxMsg, modelCalled := false,
      secondaryAttempted := false, decoded := none }
  else
    match w.profile with
    | none =>
      { status := 400, body := RespBody.errObj noProfileMsg, modelCalled := false,
        secondaryAttempted := false, decoded := none }
    | some _ =>
      match resolveCatalogue w.db w.fallbackCatalogue with
      | none =>
        { status := 500, body := RespBody.errObj catalogueUnavailableMsg, modelCalled := false,
          secondaryAttempted := false, decoded := none }
      | some _ =>
        if w.hasApiKey = false then
          { status := 500, body := RespBody.errObj apiKeyMsg, modelCalled := false,
            secondaryAttempted := false, decoded := none }
        else recModelPhase w.ai

/-! ### The parse-cv handler (parse-cv/index.ts, first revision) -/

/-- Everything the parse-cv handler observes: whether the request body
parses, the `file_base64` and `file_name` fields, the API key, and the
upstream response. -/
structure CvWorld where
  bodyParses : Bool
  file_base64 : Option (List Char)
  file_name : Option (List Char)
  hasApiKey : Bool
  ai : AiResponse

/-- The observable outcome of one parse-cv invocation.  `contentParsed`
records whether any free-text content of the response was ever parsed; the
handler has no such path, so it is false in every branch. -/
structure CvOutcome where
  status : Nat
  body : RespBody
  modelCalled : Bool
  contentParsed : Bool
deriving Repr

/-- The MIME type selection of lines 102-103: `application/pdf` when the
declared name ends in `.pdf` case-insensitively, the opaque byte stream
type otherwise. -/
def mimeTypeOf (file_name : Option (List Char)) : List Char :=
  let name := (file_name.getD []).map Char.toLower
  if List.isSuffixOf (".pdf".toList) name then "application/pdf".toList
  else "application/octet-stream".toList

/-- The upstream call and decode of parse-cv, lines 116-193: the same status
mapping as recommend, then the single structured path — first tool call,
parse its arguments, wrap as the profile object.  No content fallback
exists. -/
def cvModelPhase (ai : AiResponse) : CvOutcome :=
  if ai.ok = false then
    if ai.status = 429 then
      { status := 429, body := RespBody.errObj rateLimitMsg, modelCalled := true,
        contentParsed := false }
    else if ai.status = 402 then
      { status := 402, body := RespBody.errObj quotaMsg, modelCalled := true,
        contentParsed := false }
    else
      { status := 500, body := RespBody.errObj (gatewayErrMsg ai.status), modelCalled := true,
        contentParsed := false }
  else
    match firstToolCall ai.message with
    | none =>
      { status := 500, body := RespBody.errObj noProfileReturnedMsg, modelCalled := true,
        contentParsed := false }
    | some tc =>
      match jsonParse tc.arguments with
      | none =>
        { status := 500, body := RespBody.errObj jsonSyntaxMsg, modelCalled := true,
          contentParsed := false }
      | some p =>
        { status := 200,
          body := RespBody.jsonOut (Json.obj [(("profile".toList), p)]),
          modelCalled := true, contentParsed := false }

/-- The parse-cv handler, lines 82-201: body parse, file presence check, API
key check, model call and decode. -/
def parseCvHandler (w : CvWorld) : CvOutcome :=
  if w.bodyParses = false then
    { status := 500, body := RespBody.errObj jsonSyntaxMsg, modelCalled := false,
      contentParsed := false }
  else
    match w.file_base64 with
    | none =>
      { status := 400, body := RespBody.errObj noFileMsg, modelCalled := false,
        contentParsed := false }
    | some b =>
      if b.isEmpty then
        { status := 400, body := RespBody.errObj noFileMsg, modelCalled := false,
          contentParsed := false }
      else if w.hasApiKey = false then
        { status := 500, body := RespBody.errObj apiKeyMsg, modelCalled := false,
          contentParsed := false }
      else cvModelPhase w.ai

/-- The mandatory profile fields of the extraction schema
(parse-cv/index.ts, lines 76). -/
def mandatoryKeys : List (List Char) :=
  ["name".toList, "jobTitle".toList, "industry".toList, "yearsExperience".toList,
   "careerGoals".toList, "areasOfInterest".toList]

/-- Whether a decoded profile value populates every mandatory field with a
truthy value. -/
def hasMandatory (v : Json) : Bool :=
  mandatoryKeys.all fun k =>
    match jget v k with
    | some x => jsTruthy x
    | none => false

/-! ### Shared concrete fixtures for witnesses and counterexamples -/

/-- Wrap a text in a fenced code block with a leading `json` language tag,
exactly as in the specification's secondary-decoding example. -/
def fence (s : List Char) : List Char :=
  [tick, tick, tick] ++ ("json\n".toList) ++ s ++ ("\n".toList) ++ [tick, tick, tick]

/-- A minimal programme row with only the mandatory columns filled. -/
def sampleRow : ProgrammeRow :=
  { title := "Brand Leadership".toList, category := "Marketing".toList,
    description := [], url := "https://example.org/brand".toList, fee := [],
    format := [], location := [], start_date := [], target_audience := [],
    why_this_programme := [], key_topics := [], full_text := [] }

/-- A successful database read with one row. -/
def dbOneRow : DbResult := { error := false, data := some [sampleRow] }

/-- A database read that returned zero rows without error. -/
def dbEmpty : DbResult := { error := false, data := some [] }

/-- An ok upstream response carrying the given message. -/
def aiOkWith (m : Option Message) : AiResponse :=
  { ok := true, status := 200, message := m }

/-- A failed upstream response with the given status. -/
def aiFail (status : Nat) : AiResponse :=
  { ok := false, status := status, message := none }

/-- A recommend world whose model response answers through the primary
tool-call path with the given argument payload. -/
def toolWorld (args : List Char) : RecWorld :=
  { bodyParses := true, profile := some [], fallbackCatalogue := none,
    db := dbOneRow, hasApiKey := true,
    ai := aiOkWith (some { tool_calls := [{ arguments := args }], content := none }) }

/-- A recommend world whose model response answers through free-text content
only. -/
def contentWorld (c : List Char) : RecWorld :=
  { bodyParses := true, profile := some [], fallbackCatalogue := none,
    db := dbOneRow, hasApiKey := true,
    ai := aiOkWith (some { tool_calls := [], content := some c }) }

/-- A recommend world with the given upstream response. -/
def aiWorld (ai : AiResponse) : RecWorld :=
  { bodyParses := true, profile := some [], fallbackCatalogue := none,
    db := dbOneRow, hasApiKey := true, ai := ai }

/-- A parse-cv world whose model response answers with the given tool-call
argument payload. -/
def cvToolWorld (args : List Char) : CvWorld :=
  { bodyParses := true, file_base64 := some ("QlpG".toList),
    file_name := some ("cv.pdf".toList), hasApiKey := true,
    ai := aiOkWith (some { tool_calls := [{ arguments := args }], content := none }) }

/-- A parse-cv world with the given upstream response. -/
def cvAiWorld (ai : AiResponse) : CvWorld :=
  { bodyParses := true, file_base64 := some ("QlpG".toList),
    file_name := some ("cv.pdf".toList), hasApiKey := true, ai := ai }

/-- A recommend world in which the database read yields zero rows and no
inline fallback was supplied. -/
def noCatWorld : RecWorld :=
  { bodyParses := true, profile := some [], fallbackCatalogue := none,
    db := dbEmpty, hasApiKey := true, ai := aiOkWith none }

/-- A single parsed recommendation whose title and reasoning are both the
empty string. -/
def cxEmptyRec : Json :=
  Json.obj [("programmeTitle".toList, Json.str []), ("reasoning".toList, Json.str [])]

/-- A parsed payload with one blank recommendation and an outreach email. -/
def cxOneRecSet : Json :=
  Json.obj [(recsKey, Json.arr [cxEmptyRec]),
            ("outreachEmail".toList, Json.str ("e".toList))]

/-- The fields of a well-shaped payload with one string recommendation. -/
def okFields : List (List Char × Json) :=
  [(recsKey, Json.arr [Json.str ("Brand Leadership".toList)]),
   ("outreachEmail".toList, Json.str ("hello".toList))]

/-- A well-shaped payload with one string recommendation, used as a witness
input. -/
def okOneRecSet : Json := Json.obj okFields

/-- A payload whose only recommendation contains a triple backtick inside a
string, so its rendering contains the fence delimiter. -/
def cxTickSet : Json :=
  Json.obj [(recsKey, Json.arr [Json.str ("a".toList ++ [tick, tick, tick] ++ "b".toList)])]

/-! ## Theorems

General lemmas about the embedded operations come first, then one theorem per
claim (with its witness or counterexample). -/

/-- With no inline fallback, a failed or empty database read resolves to no
catalogue. -/
theorem resolveCatalogue_unavailable (db : DbResult)
    (h : db.error = true ∨ db.data = none ∨ db.data = some []) :
    resolveCatalogue db none = none := by
  rcases db with ⟨err, data⟩
  cases err <;> cases data <;> simp_all [resolveCatalogue, fallbackOr]

/-- Once the body parses, the profile is present and the catalogue resolves,
the outcome with an API key is that of the model phase. -/
theorem recommendHandler_model (w : RecWorld) (fs : List (List Char × Json))
    (cat : List Char) (hb : w.bodyParses = true) (hp : w.profile = some fs)
    (hc : resolveCatalogue w.db w.fallbackCatalogue = some cat)
    (hk : w.hasApiKey = true) :
    recommendHandler w = recModelPhase w.ai := by
  simp [recommendHandler, hb, hp, hc, hk]

/-- The parse-cv outcome reduces to its model phase once the body parses, the
file is present and non-empty, and the API key is configured. -/
theorem parseCvHandler_model (w : CvWorld) (b : List Char)
    (hb : w.bodyParses = true) (hf : w.file_base64 = some b)
    (hne : b.isEmpty = false) (hk : w.hasApiKey = true) :
    parseCvHandler w = cvModelPhase w.ai := by
  simp [parseCvHandler, hb, hf, hne, hk]

/-- C3: for every invocation of the recommendation operation in which the
catalogue read yields zero rows (or errors) and no inline fallback catalogue
was supplied, the operation fails with the catalogue-unavailable error (the
500 response carrying its message) and the generative model is never
called. -/
theorem C3_catalogue_unavailable_short_circuits (w : RecWorld)
    (fs : List (List Char × Json)) (hb : w.bodyParses = true)
    (hp : w.profile = some fs)
    (hdb : w.db.error = true ∨ w.db.data = none ∨ w.db.data = some [])
    (hfb : w.fallbackCatalogue = none) :
    recommendHandler w =
      { status := 500, body := RespBody.errObj catalogueUnavailableMsg,
        modelCalled := false, secondaryAttempted := false, decoded := none } := by
  have hres : resolveCatalogue w.db w.fallbackCatalogue = none := by
    rw [hfb]; exact resolveCatalogue_unavailable w.db hdb
  simp [recommendHandler, hb, hp, hres]

/-- Witness for C3 at a concrete world: an errorless read of zero rows with
no fallback gives the 500 catalogue message and no model call. -/
theorem C3_catalogue_unavailable_short_circuits_witness :
    recommendHandler noCatWorld =
      { status := 500, body := RespBody.errObj catalogueUnavailableMsg,
        modelCalled := false, secondaryAttempted := false, decoded := none } :=
  C3_catalogue_unavailable_short_circuits noCatWorld [] rfl rfl
    (Or.inr (Or.inr rfl)) rfl

/-- C7: an upstream 429 makes both extraction and synthesis fail with the
rate-limited response (status 429), whose message differs from the quota
message of the 402 mapping. -/
theorem C7_rate_limited_429_distinct_from_quota :
    (∀ (w : RecWorld) (fs : List (List Char × Json)) (cat : List Char),
      w.bodyParses = true → w.profile = some fs →
      resolveCatalogue w.db w.fallbackCatalogue = some cat →
      w.hasApiKey = true → w.ai.ok = false → w.ai.status = 429 →
      recommendHandler w =
        { status := 429, body := RespBody.errObj rateLimitMsg,
          modelCalled := true, secondaryAttempted := false, decoded := none }) ∧
    (∀ (w : CvWorld) (b : List Char),
      w.bodyParses = true → w.file_base64 = some b → b.isEmpty = false →
      w.hasApiKey = true → w.ai.ok = false → w.ai.status = 429 →
      parseCvHandler w =
        { status := 429, body := RespBody.errObj rateLimitMsg,
          modelCalled := true, contentParsed := false }) ∧
    rateLimitMsg ≠ quotaMsg := by
  refine ⟨?_, ?_, by decide⟩
  · intro w fs cat hb hp hc hk hok hst
    rw [recommendHandler_model w fs cat hb hp hc hk]
    simp [recModelPhase, hok, hst]
  · intro w b hb hf hne hk hok hst
    rw [parseCvHandler_model w b hb hf hne hk]
    simp [cvModelPhase, hok, hst]

/-- Witness for C7 at concrete worlds: both handlers on an upstream 429. -/
theorem C7_rate_limited_429_distinct_from_quota_witness :
    recommendHandler (aiWorld (aiFail 429)) =
      { status := 429, body := RespBody.errObj rateLimitMsg,
        modelCalled := true, secondaryAttempted := false, decoded := none } ∧
    parseCvHandler (cvAiWorld (aiFail 429)) =
      { status := 429, body := RespBody.errObj rateLimitMsg,
        modelCalled := true, contentParsed := false } :=
  ⟨C7_rate_limited_429_distinct_from_quota.1 (aiWorld (aiFail 429)) []
      (buildCatalogue [sampleRow]) rfl rfl rfl rfl rfl rfl,
   C7_rate_limited_429_distinct_from_quota.2.1 (cvAiWorld (aiFail 429))
      ("QlpG".toList) rfl rfl rfl rfl rfl rfl⟩

/-- C8: a model response without a function-result makes extraction fail
with the format error, and the parse-cv handler parses free-text content in
no branch whatsoever. -/
theorem C8_extraction_fails_without_tool_call :
    (∀ w : CvWorld, (parseCvHandler w).contentParsed = false) ∧
    (∀ (w : CvWorld) (b : List Char),
      w.bodyParses = true → w.file_base64 = some b → b.isEmpty = false →
      w.hasApiKey = true → w.ai.ok = true →
      firstToolCall w.ai.message = none →
      parseCvHandler w =
        { status := 500, body := RespBody.errObj noProfileReturnedMsg,
          modelCalled := true, contentParsed := false }) := by
  constructor
  · intro w
    unfold parseCvHandler cvModelPhase
    repeat' split
    all_goals rfl
  · intro w b hb hf hne hk hok htc
    rw [parseCvHandler_model w b hb hf hne hk]
    simp [cvModelPhase, hok, htc]

/-- Witness for C8 at a concrete world: an ok response whose message has no
tool call. -/
theorem C8_extraction_fails_without_tool_call_witness :
    parseCvHandler (cvAiWorld (aiOkWith none)) =
      { status := 500, body := RespBody.errObj noProfileReturnedMsg,
        modelCalled := true, contentParsed := false } :=
  C8_extraction_fails_without_tool_call.2 (cvAiWorld (aiOkWith none))
    ("QlpG".toList) rfl rfl rfl rfl rfl rfl

/-- Every recommend outcome is either a success carrying a payload that
passed validation, or a single error object with one of the four failure
statuses. -/
theorem recommendHandler_shape (w : RecWorld) :
    (∃ m, (recommendHandler w).body = RespBody.errObj m ∧
      ((recommendHandler w).status = 400 ∨ (recommendHandler w).status = 402 ∨
       (recommendHandler w).status = 429 ∨ (recommendHandler w).status = 500)) ∨
    (∃ v, (recommendHandler w).status = 200 ∧
      (recommendHandler w).body = RespBody.jsonOut v ∧
      validRecs v = true ∧ (recommendHandler w).decoded = some v) := by
  unfold recommendHandler recModelPhase recDecodePhase recValidate
  repeat' split
  all_goals
    first
      | exact Or.inl ⟨_, rfl, by simp⟩
      | exact Or.inr ⟨_, rfl, rfl, by assumption, rfl⟩

/-- Every parse-cv outcome is either the success response wrapping exactly
the decoded tool-call arguments, or a single error object with one of the
four failure statuses. -/
theorem parseCvHandler_shape (w : CvWorld) :
    (∃ m, (parseCvHandler w).body = RespBody.errObj m ∧
      ((parseCvHandler w).status = 400 ∨ (parseCvHandler w).status = 402 ∨
       (parseCvHandler w).status = 429 ∨ (parseCvHandler w).status = 500)) ∨
    (∃ tc v, firstToolCall w.ai.message = some tc ∧
      jsonParse tc.arguments = some v ∧
      parseCvHandler w =
        { status := 200,
          body := RespBody.jsonOut (Json.obj [(("profile".toList), v)]),
          modelCalled := true, contentParsed := false }) := by
  unfold parseCvHandler cvModelPhase
  repeat' split
  all_goals
    first
      | exact Or.inl ⟨_, rfl, by simp⟩
      | exact Or.inr ⟨_, _, by assumption, by assumption, rfl⟩

/-- C6: whenever the model response carries a function-result, the decoded
payload is exactly the JSON decode of that tool call's arguments and the
secondary free-text decode path is never attempted. -/
theorem C6_primary_path_takes_precedence (w : RecWorld)
    (fs : List (List Char × Json)) (cat : List Char) (tc : ToolCall)
    (hb : w.bodyParses = true) (hp : w.profile = some fs)
    (hc : resolveCatalogue w.db w.fallbackCatalogue = some cat)
    (hk : w.hasApiKey = true) (hok : w.ai.ok = true)
    (htc : firstToolCall w.ai.message = some tc) :
    (recommendHandler w).secondaryAttempted = false ∧
    (recommendHandler w).decoded = jsonParse tc.arguments := by
  rw [recommendHandler_model w fs cat hb hp hc hk]
  simp only [recModelPhase, hok, Bool.true_eq_false, if_false]
  simp only [recDecodePhase, htc]
  cases h : jsonParse tc.arguments with
  | none => simp [h]
  | some v => simp only [h, recValidate]; split <;> simp

/-- Witness for C6 at a concrete world: a tool call carrying a well-shaped
payload decodes through the primary path. -/
theorem C6_primary_path_takes_precedence_witness :
    (recommendHandler (toolWorld (render okOneRecSet))).secondaryAttempted = false ∧
    (recommendHandler (toolWorld (render okOneRecSet))).decoded =
      jsonParse (render okOneRecSet) :=
  C6_primary_path_takes_precedence (toolWorld (render okOneRecSet)) []
    (buildCatalogue [sampleRow]) { arguments := render okOneRecSet }
    rfl rfl rfl rfl rfl rfl

/-- C1 counterexample: a successful synthesis whose recommendations array
has one element with an empty title and empty reasoning — the handler
returns it as a 200 success, so success does not imply three recommendations
with non-empty titles. -/
theorem C1_counterexample_success_without_three :
    (recommendHandler (toolWorld (render cxOneRecSet))).status = 200 ∧
    (recommendHandler (toolWorld (render cxOneRecSet))).body =
      RespBody.jsonOut cxOneRecSet ∧
    jget cxOneRecSet recsKey = some (Json.arr [cxEmptyRec]) ∧
    jget cxEmptyRec ("programmeTitle".toList) = some (Json.str []) := by
  refine ⟨?_, ?_, rfl, rfl⟩ <;> rfl

/-- C1 amended: every successful synthesis result has a truthy
`recommendations` property that is an array; its length and the contents of
its elements are not constrained by the handler. -/
theorem C1_success_recommendations_is_array (w : RecWorld) (v : Json)
    (hs : (recommendHandler w).status = 200)
    (hb : (recommendHandler w).body = RespBody.jsonOut v) :
    ∃ rs, jget v recsKey = some (Json.arr rs) := by
  rcases recommendHandler_shape w with ⟨m, hbm, hst⟩ | ⟨v', _, hb', hvalid, _⟩
  · rw [hbm] at hb; cases hb
  · rw [hb'] at hb
    cases hb
    unfold validRecs at hvalid
    rcases h : jget v recsKey with _ | r
    · rw [h] at hvalid; cases hvalid
    · rw [h] at hvalid
      rcases r with _ | b | s | xs | fs2 <;> simp_all [isArr]

/-- Witness for C1 amended at a concrete successful world. -/
theorem C1_success_recommendations_is_array_witness :
    ∃ rs, jget okOneRecSet recsKey = some (Json.arr rs) :=
  C1_success_recommendations_is_array (toolWorld (render okOneRecSet))
    okOneRecSet rfl rfl

/-- C4 counterexample: a model response whose tool-call arguments decode to
the empty object is returned as a 200 success whose profile populates none
of the mandatory fields. -/
theorem C4_counterexample_unvalidated_profile :
    (parseCvHandler (cvToolWorld (render (Json.obj [])))).status = 200 ∧
    (parseCvHandler (cvToolWorld (render (Json.obj [])))).body =
      RespBody.jsonOut (Json.obj [(("profile".toList), Json.obj [])]) ∧
    hasMandatory (Json.obj []) = false :=
  ⟨rfl, rfl, rfl⟩

/-- C4 amended: extraction always returns either a classified failure (a
single error object with status 400, 402, 429 or 500) or a success wrapping
exactly the decoded tool-call arguments as the profile — never a partial or
undefined result; population of the mandatory fields is not checked, so it
holds only when the decoded arguments themselves populate them. -/
theorem C4_extraction_total (w : CvWorld) :
    (∃ m, (parseCvHandler w).body = RespBody.errObj m ∧
      ((parseCvHandler w).status = 400 ∨ (parseCvHandler w).status = 402 ∨
       (parseCvHandler w).status = 429 ∨ (parseCvHandler w).status = 500)) ∨
    (∃ tc v, firstToolCall w.ai.message = some tc ∧
      jsonParse tc.arguments = some v ∧
      parseCvHandler w =
        { status := 200,
          body := RespBody.jsonOut (Json.obj [(("profile".toList), v)]),
          modelCalled := true, contentParsed := false }) :=
  parseCvHandler_shape w

/-- C10: every failing outcome of either handler is a single error object
with status 400, 402, 429 or 500; in particular the catalogue-unavailable
failure, the format failure and the generic gateway failure all surface as
status 500, indistinguishable by status code. -/
theorem C10_failures_map_to_500 :
    (∀ w : RecWorld,
      (∃ v, (recommendHandler w).status = 200 ∧
        (recommendHandler w).body = RespBody.jsonOut v) ∨
      (∃ m, (recommendHandler w).body = RespBody.errObj m ∧
        ((recommendHandler w).status = 400 ∨ (recommendHandler w).status = 402 ∨
         (recommendHandler w).status = 429 ∨ (recommendHandler w).status = 500))) ∧
    (∀ w : CvWorld,
      (∃ v, (parseCvHandler w).status = 200 ∧
        (parseCvHandler w).body = RespBody.jsonOut v) ∨
      (∃ m, (parseCvHandler w).body = RespBody.errObj m ∧
        ((parseCvHandler w).status = 400 ∨ (parseCvHandler w).status = 402 ∨
         (parseCvHandler w).status = 429 ∨ (parseCvHandler w).status = 500))) ∧
    (∀ (w : RecWorld) (fs : List (List Char × Json)),
      w.bodyParses = true → w.profile = some fs →
      (w.db.error = true ∨ w.db.data = none ∨ w.db.data = some []) →
      w.fallbackCatalogue = none →
      (recommendHandler w).status = 500 ∧
      (recommendHandler w).body = RespBody.errObj catalogueUnavailableMsg) ∧
    (∀ (w : RecWorld) (fs : List (List Char × Json)) (cat : List Char),
      w.bodyParses = true → w.profile = some fs →
      resolveCatalogue w.db w.fallbackCatalogue = some cat →
      w.hasApiKey = true → w.ai.ok = true → w.ai.message = none →
      (recommendHandler w).status = 500 ∧
      (recommendHandler w).body = RespBody.errObj noRecsMsg) ∧
    (∀ (w : RecWorld) (fs : List (List Char × Json)) (cat : List Char),
      w.bodyParses = true → w.profile = some fs →
      resolveCatalogue w.db w.fallbackCatalogue = some cat →
      w.hasApiKey = true → w.ai.ok = false →
      ¬w.ai.status = 429 → ¬w.ai.status = 402 →
      (recommendHandler w).status = 500 ∧
      (recommendHandler w).body = RespBody.errObj (gatewayErrMsg w.ai.status)) := by
  refine ⟨?_, ?_, ?_, ?_, ?_⟩
  · intro w
    rcases recommendHandler_shape w with ⟨m, hb, hst⟩ | ⟨v, hst, hb, _, _⟩
    · exact Or.inr ⟨m, hb, hst⟩
    · exact Or.inl ⟨v, hst, hb⟩
  · intro w
    rcases parseCvHandler_shape w with ⟨m, hb, hst⟩ | ⟨tc, v, _, _, heq⟩
    · exact Or.inr ⟨m, hb, hst⟩
    · exact Or.inl ⟨_, by rw [heq], by rw [heq]⟩
  · intro w fs hb hp hdb hfb
    have hres : resolveCatalogue w.db w.fallbackCatalogue = none := by
      rw [hfb]; exact resolveCatalogue_unavailable w.db hdb
    simp [recommendHandler, hb, hp, hres]
  · intro w fs cat hb hp hc hk hok hmsg
    rw [recommendHandler_model w fs cat hb hp hc hk]
    simp [recModelPhase, hok, recDecodePhase, hmsg, firstToolCall]
  · intro w fs cat hb hp hc hk hok h429 h402
    rw [recommendHandler_model w fs cat hb hp hc hk]
    simp [recModelPhase, hok, h429, h402]

/-- Witness for C10 at concrete worlds: the catalogue-unavailable failure,
the format failure and a gateway 503 failure all yield status 500. -/
theorem C10_failures_map_to_500_witness :
    ((recommendHandler noCatWorld).status = 500 ∧
      (recommendHandler noCatWorld).body =
        RespBody.errObj catalogueUnavailableMsg) ∧
    ((recommendHandler (aiWorld (aiOkWith none))).status = 500 ∧
      (recommendHandler (aiWorld (aiOkWith none))).body =
        RespBody.errObj noRecsMsg) ∧
    ((recommendHandler (aiWorld (aiFail 503))).status = 500 ∧
      (recommendHandler (aiWorld (aiFail 503))).body =
        RespBody.errObj (gatewayErrMsg 503)) :=
  ⟨C10_failures_map_to_500.2.2.1 noCatWorld [] rfl rfl (Or.inr (Or.inr rfl)) rfl,
   C10_failures_map_to_500.2.2.2.1 (aiWorld (aiOkWith none)) []
     (buildCatalogue [sampleRow]) rfl rfl rfl rfl rfl rfl,
   C10_failures_map_to_500.2.2.2.2 (aiWorld (aiFail 503)) []
     (buildCatalogue [sampleRow]) rfl rfl rfl rfl rfl
     (by decide) (by decide)⟩

/-- Whitespace skipping leaves a text whose first character is not
whitespace untouched. -/
theorem skipWs_cons_of (c : Char) (l : List Char) (h : isWs c = false) :
    skipWs (c :: l) = c :: l := by
  simp [skipWs, List.dropWhile_cons, h]

/-- Dropping the first character preserves the absence of a triple
backtick. -/
theorem hasTriple_tail (c : Char) (l : List Char)
    (h : hasTripleTick (c :: l) = false) : hasTripleTick l = false := by
  cases l with
  | nil => rfl
  | cons d l2 =>
    cases l2 with
    | nil => rfl
    | cons e l3 =>
      unfold hasTripleTick at h
      simp only [Bool.or_eq_false_iff] at h
      exact h.2

/-- Prepending a non-backtick character preserves the absence of a triple
backtick. -/
theorem hasTriple_cons_of (c : Char) (l : List Char) (hc : ¬ c = tick)
    (h : hasTripleTick l = false) : hasTripleTick (c :: l) = false := by
  cases l with
  | nil => rfl
  | cons d l2 =>
    cases l2 with
    | nil => rfl
    | cons e l3 =>
      unfold hasTripleTick
      simp [hc, h]

/-- Appending a newline and two backticks to a text without a triple
backtick cannot create one: any new window contains the newline. -/
theorem hasTriple_append_guard : ∀ l : List Char, hasTripleTick l = false →
    hasTripleTick (l ++ ['\n', tick, tick]) = false
  | [], _ => by decide
  | [c], _ => by
    show hasTripleTick (c :: '\n' :: tick :: tick :: []) = false
    simp +decide [hasTripleTick]
  | [c, d], _ => by
    show hasTripleTick (c :: d :: '\n' :: tick :: tick :: []) = false
    simp +decide [hasTripleTick]
  | c :: d :: e :: rest, h => by
    have h' : hasTripleTick (d :: e :: rest) = false := hasTriple_tail c _ h
    have hw : (decide (c = tick) && decide (d = tick) && decide (e = tick)) = false := by
      have he : hasTripleTick (c :: d :: e :: rest) =
          ((decide (c = tick) && decide (d = tick) && decide (e = tick)) ||
            hasTripleTick (d :: e :: rest)) := rfl
      rw [he] at h
      exact (Bool.or_eq_false_iff.mp h).1
    have ih := hasTriple_append_guard (d :: e :: rest) h'
    show hasTripleTick (c :: d :: e :: (rest ++ ['\n', tick, tick])) = false
    unfold hasTripleTick
    simp only [Bool.or_eq_false_iff]
    exact ⟨by simpa using hw, by simpa using ih⟩

/-- The head window of a text without a triple backtick is not three
backticks. -/
theorem hasTriple_head_window (c1 c2 c3 : Char) (l : List Char)
    (h : hasTripleTick (c1 :: c2 :: c3 :: l) = false) :
    (decide (c1 = tick) && decide (c2 = tick) && decide (c3 = tick)) = false := by
  have he : hasTripleTick (c1 :: c2 :: c3 :: l) =
      ((decide (c1 = tick) && decide (c2 = tick) && decide (c3 = tick)) ||
        hasTripleTick (c2 :: c3 :: l)) := rfl
  rw [he] at h
  exact (Bool.or_eq_false_iff.mp h).1

/-- The splitting scan, run on a piece free of triple backticks followed by
the separator, emits the accumulated piece and continues after the
separator. -/
theorem splitTicks_after_sep : ∀ (m acc rest : List Char),
    hasTripleTick (m ++ [tick, tick]) = false →
    splitTicks (m ++ (tick :: tick :: tick :: rest)) acc =
      (acc.reverse ++ m) :: splitTicks rest []
  | [], acc, rest, _ => by
    show splitTicks (tick :: tick :: tick :: rest) acc = _
    conv_lhs => unfold splitTicks
    rw [if_pos (by decide)]
    simp
  | [c], acc, rest, h => by
    have hw : (decide (c = tick) && decide (tick = tick) && decide (tick = tick)) = false := by
      simp +decide [hasTripleTick] at h
      simp [h]
    show splitTicks (c :: tick :: tick :: tick :: rest) acc =
      (acc.reverse ++ [c]) :: splitTicks rest []
    conv_lhs => unfold splitTicks
    rw [if_neg (by rw [hw]; exact Bool.false_ne_true)]
    have h0 := splitTicks_after_sep [] (c :: acc) rest (by decide)
    simp only [List.nil_append] at h0
    rw [h0]
    simp
  | [c, d], acc, rest, h => by
    have hw : (decide (c = tick) && decide (d = tick) && decide (tick = tick)) = false :=
      hasTriple_head_window c d tick [tick] h
    have h' : hasTripleTick ([d] ++ [tick, tick]) = false := hasTriple_tail c _ h
    show splitTicks (c :: d :: tick :: (tick :: tick :: rest)) acc =
      (acc.reverse ++ [c, d]) :: splitTicks rest []
    conv_lhs => unfold splitTicks
    rw [if_neg (by rw [hw]; exact Bool.false_ne_true)]
    have h0 := splitTicks_after_sep [d] (c :: acc) rest h'
    simp only [List.singleton_append] at h0
    rw [h0]
    simp [List.reverse_cons, List.append_assoc]
  | c :: d :: e :: m', acc, rest, h => by
    have hw : (decide (c = tick) && decide (d = tick) && decide (e = tick)) = false :=
      hasTriple_head_window c d e (m' ++ [tick, tick]) h
    have h' : hasTripleTick ((d :: e :: m') ++ [tick, tick]) = false :=
      hasTriple_tail c _ h
    show splitTicks (c :: d :: e :: (m' ++ (tick :: tick :: tick :: rest))) acc =
      (acc.reverse ++ (c :: d :: e :: m')) :: splitTicks rest []
    conv_lhs => unfold splitTicks
    rw [if_neg (by rw [hw]; exact Bool.false_ne_true)]
    have h0 := splitTicks_after_sep (d :: e :: m') (c :: acc) rest h'
    simp only [List.cons_append] at h0
    rw [h0]
    simp [List.reverse_cons, List.append_assoc]

/-- Parsing an escaped string body followed by a closing quote recovers the
original characters and leaves the rest untouched. -/
theorem parseStringBody_escape : ∀ (s t : List Char),
    parseStringBody (escapeStr s ++ (dquote :: t)) = some (s, t)
  | [], t => by
    show parseStringBody (dquote :: t) = some ([], t)
    unfold parseStringBody
    rw [if_pos rfl]
  | c :: s', t => by
    have ih := parseStringBody_escape s' t
    show parseStringBody ((escapeChar c ++ escapeStr s') ++ (dquote :: t)) =
      some (c :: s', t)
    by_cases h1 : c = dquote
    · subst h1
      simp +decide [escapeChar, parseStringBody, unescape, List.append_assoc, ih]
    · by_cases h2 : c = bslash
      · subst h2
        simp +decide [escapeChar, parseStringBody, unescape, List.append_assoc, ih]
      · by_cases h3 : c = '\n'
        · subst h3
          simp +decide [escapeChar, parseStringBody, unescape, List.append_assoc, ih]
        · by_cases h4 : c = '\t'
          · subst h4
            simp +decide [escapeChar, parseStringBody, unescape, List.append_assoc, ih]
          · by_cases h5 : c = '\r'
            · subst h5
              simp +decide [escapeChar, parseStringBody, unescape, List.append_assoc, ih]
            · simp only [escapeChar, if_neg h1, if_neg h2, if_neg h3, if_neg h4, if_neg h5]
              simp only [List.singleton_append, List.cons_append]
              unfold parseStringBody
              rw [if_neg h1, if_neg h2]
              simp only [List.nil_append, ih]

/-- Every rendering is non-empty, starts with a non-whitespace character,
and never starts with a closing bracket. -/
theorem render_head (v : Json) :
    ∃ c cs, render v = c :: cs ∧ isWs c = false ∧ ¬ c = ']' := by
  cases v with
  | null => exact ⟨'n', _, rfl, by decide, by decide⟩
  | bool b => cases b with
    | true => exact ⟨'t', _, rfl, by decide, by decide⟩
    | false => exact ⟨'f', _, rfl, by decide, by decide⟩
  | str s => exact ⟨dquote, _, rfl, by decide, by decide⟩
  | arr xs => cases xs with
    | nil => exact ⟨'[', _, rfl, by decide, by decide⟩
    | cons x xs' => exact ⟨'[', _, rfl, by decide, by decide⟩
  | obj fs => cases fs with
    | nil => exact ⟨lbrace, _, rfl, by decide, by decide⟩
    | cons kv fs' => exact ⟨lbrace, _, rfl, by decide, by decide⟩

/-- Renderings have positive length. -/
theorem render_length_pos (v : Json) : 0 < (render v).length := by
  obtain ⟨c, cs, h, _, _⟩ := render_head v
  rw [h]
  simp

/-- The rendered tail of an array has positive length. -/
theorem renderArrTail_length_pos (xs : List Json) :
    0 < (renderArrTail xs).length := by
  cases xs <;> simp [renderArrTail]

/-- The rendered tail of an object has positive length. -/
theorem renderObjTail_length_pos (fs : List (List Char × Json)) :
    0 < (renderObjTail fs).length := by
  cases fs <;> simp [renderObjTail]

/-- Round trip of the parser against the renderer: with enough fuel, parsing
a rendered value followed by an arbitrary tail yields exactly the value and
the tail.  The three conjuncts cover values, non-empty array tails and
non-empty object tails; the induction is on the fuel. -/
theorem parse_render_aux : ∀ f : Nat,
    (∀ (v : Json) (t : List Char), (render v).length < f →
      parseValue f (render v ++ t) = some (v, t)) ∧
    (∀ (x : Json) (xs : List Json) (t : List Char),
      (render x ++ renderArrTail xs).length < f →
      parseItems f ((render x ++ renderArrTail xs) ++ t) = some (x :: xs, t)) ∧
    (∀ (kv : List Char × Json) (fs : List (List Char × Json)) (t : List Char),
      (renderField kv ++ renderObjTail fs).length < f →
      parseFields f ((renderField kv ++ renderObjTail fs) ++ t) = some (kv :: fs, t)) := by
  intro f
  induction f with
  | zero =>
    refine ⟨?_, ?_, ?_⟩
    · intro v t h; exact absurd h (Nat.not_lt_zero _)
    · intro x xs t h; exact absurd h (Nat.not_lt_zero _)
    · intro kv fs t h; exact absurd h (Nat.not_lt_zero _)
  | succ f ih =>
    obtain ⟨ihV, ihI, ihF⟩ := ih
    refine ⟨?_, ?_, ?_⟩
    · intro v t hlen
      cases v with
      | null =>
        show parseValue (f + 1) ("null".toList ++ t) = some (Json.null, t)
        unfold parseValue
        simp +decide [skipWs, List.dropWhile, isWs, List.isPrefixOf]
      | bool b =>
        cases b with
        | true =>
          show parseValue (f + 1) ("true".toList ++ t) = some (Json.bool true, t)
          unfold parseValue
          simp +decide [skipWs, List.dropWhile, isWs, List.isPrefixOf]
        | false =>
          show parseValue (f + 1) ("false".toList ++ t) = some (Json.bool false, t)
          unfold parseValue
          simp +decide [skipWs, List.dropWhile, isWs, List.isPrefixOf]
      | str s =>
        show parseValue (f + 1) ((dquote :: (escapeStr s ++ [dquote])) ++ t) =
          some (Json.str s, t)
        have step : parseValue (f + 1) ((dquote :: (escapeStr s ++ [dquote])) ++ t) =
            (match parseStringBody ((escapeStr s ++ [dquote]) ++ t) with
             | none => none
             | some (sv, r) => some (Json.str sv, r)) := rfl
        rw [step,
          show (escapeStr s ++ [dquote]) ++ t = escapeStr s ++ (dquote :: t) by simp,
          parseStringBody_escape s t]
      | arr xs =>
        cases xs with
        | nil =>
          show parseValue (f + 1) ("[]".toList ++ t) = some (Json.arr [], t)
          rfl
        | cons x xs' =>
          show parseValue (f + 1) (('[' :: (render x ++ renderArrTail xs')) ++ t) =
            some (Json.arr (x :: xs'), t)
          have step : parseValue (f + 1) (('[' :: (render x ++ renderArrTail xs')) ++ t) =
              (match skipWs ((render x ++ renderArrTail xs') ++ t) with
               | [] => none
               | c2 :: rest2 =>
                 if c2 = ']' then some (Json.arr [], rest2)
                 else
                   match parseItems f (c2 :: rest2) with
                   | none => none
                   | some (ys, r) => some (Json.arr ys, r)) := rfl
          rw [step]
          obtain ⟨c, cs, hcx, hws, hne⟩ := render_head x
          have hI := ihI x xs' t (by
            have he : (render (Json.arr (x :: xs'))).length =
                1 + (render x ++ renderArrTail xs').length := by
              show ('[' :: (render x ++ renderArrTail xs')).length = _
              simp
              omega
            omega)
          rw [hcx] at hI ⊢
          simp only [List.cons_append, List.append_assoc] at hI ⊢
          rw [skipWs_cons_of c _ hws]
          simp only [if_neg hne]
          rw [hI]
      | obj fs =>
        cases fs with
        | nil =>
          show parseValue (f + 1) ([lbrace, rbrace] ++ t) = some (Json.obj [], t)
          rfl
        | cons kv fs' =>
          show parseValue (f + 1) ((lbrace :: (renderField kv ++ renderObjTail fs')) ++ t) =
            some (Json.obj (kv :: fs'), t)
          have step : parseValue (f + 1) ((lbrace :: (renderField kv ++ renderObjTail fs')) ++ t) =
              (match skipWs ((renderField kv ++ renderObjTail fs') ++ t) with
               | [] => none
               | c2 :: rest2 =>
                 if c2 = rbrace then some (Json.obj [], rest2)
                 else
                   match parseFields f (c2 :: rest2) with
                   | none => none
                   | some (gs, r) => some (Json.obj gs, r)) := rfl
          rw [step]
          obtain ⟨k, v⟩ := kv
          have hF := ihF (k, v) fs' t (by
            have he : (render (Json.obj ((k, v) :: fs'))).length =
                1 + (renderField (k, v) ++ renderObjTail fs').length := by
              show (lbrace :: (renderField (k, v) ++ renderObjTail fs')).length = _
              simp
              omega
            omega)
          have hf : renderField (k, v) =
              dquote :: ((escapeStr k ++ [dquote, ':']) ++ render v) := rfl
          rw [hf] at hF ⊢
          simp only [List.cons_append, List.append_assoc] at hF ⊢
          rw [skipWs_cons_of dquote _ (by decide)]
          simp only [if_neg (show ¬ dquote = rbrace by decide)]
          rw [hF]
    · intro x xs t hlen
      have step : parseItems (f + 1) ((render x ++ renderArrTail xs) ++ t) =
          (match parseValue f ((render x ++ renderArrTail xs) ++ t) with
           | none => none
           | some (v, r1) =>
             match skipWs r1 with
             | [] => none
             | c :: r2 =>
               if c = ',' then
                 match parseItems f r2 with
                 | none => none
                 | some (ys, r3) => some (v :: ys, r3)
               else if c = ']' then some ([v], r2)
               else none) := rfl
      rw [step]
      have harr := renderArrTail_length_pos xs
      have hlen2 : (render x ++ renderArrTail xs).length =
          (render x).length + (renderArrTail xs).length := by simp
      have hV := ihV x (renderArrTail xs ++ t) (by omega)
      rw [show (render x ++ renderArrTail xs) ++ t =
        render x ++ (renderArrTail xs ++ t) by simp, hV]
      cases xs with
      | nil =>
        show (match skipWs (([']'] : List Char) ++ t) with
             | [] => none
             | c :: r2 =>
               if c = ',' then
                 match parseItems f r2 with
                 | none => none
                 | some (ys, r3) => some (x :: ys, r3)
               else if c = ']' then some ([x], r2)
               else none) = some ([x], t)
        rw [show ([']'] : List Char) ++ t = ']' :: t from rfl,
          skipWs_cons_of ']' _ (by decide)]
        simp +decide
      | cons y ys =>
        have hx := render_length_pos x
        have hy : (render x ++ renderArrTail (y :: ys)).length =
            (render x).length + 1 + (render y ++ renderArrTail ys).length := by
          show (render x ++ (',' :: (render y ++ renderArrTail ys))).length = _
          simp
          omega
        have hI := ihI y ys t (by omega)
        show (match skipWs ((',' :: (render y ++ renderArrTail ys)) ++ t) with
             | [] => none
             | c :: r2 =>
               if c = ',' then
                 match parseItems f r2 with
                 | none => none
                 | some (ys2, r3) => some (x :: ys2, r3)
               else if c = ']' then some ([x], r2)
               else none) = some (x :: y :: ys, t)
        rw [show (',' :: (render y ++ renderArrTail ys)) ++ t =
          ',' :: ((render y ++ renderArrTail ys) ++ t) from rfl,
          skipWs_cons_of ',' _ (by decide)]
        simp only [List.append_assoc] at hI
        simp [hI]
    · intro kv fs t hlen
      obtain ⟨k, v⟩ := kv
      have hf : renderField (k, v) =
          dquote :: ((escapeStr k ++ [dquote, ':']) ++ render v) := rfl
      have step : ∀ l : List Char, parseFields (f + 1) (dquote :: l) =
          (match parseStringBody l with
           | none => none
           | some (k2, r1) =>
             match skipWs r1 with
             | [] => none
             | c2 :: r2 =>
               if c2 = ':' then
                 match parseValue f r2 with
                 | none => none
                 | some (v2, r3) =>
                   match skipWs r3 with
                   | [] => none
                   | c3 :: r4 =>
                     if c3 = ',' then
                       match parseFields f r4 with
                       | none => none
                       | some (gs, r5) => some ((k2, v2) :: gs, r5)
                     else if c3 = rbrace then some ([(k2, v2)], r4)
                     else none
               else none) := fun l => rfl
      show parseFields (f + 1) ((renderField (k, v) ++ renderObjTail fs) ++ t) =
        some ((k, v) :: fs, t)
      rw [hf]
      simp only [List.cons_append, List.append_assoc]
      rw [step]
      have hobj := renderObjTail_length_pos fs
      have hesc : (renderField (k, v) ++ renderObjTail fs).length =
          3 + (escapeStr k).length + (render v).length + (renderObjTail fs).length := by
        rw [hf]
        simp
        omega
      have hV := ihV v (renderObjTail fs ++ t) (by omega)
      have hsk : skipWs (':' :: (render v ++ (renderObjTail fs ++ t))) =
          ':' :: (render v ++ (renderObjTail fs ++ t)) :=
        skipWs_cons_of _ _ (by decide)
      simp only [List.nil_append, parseStringBody_escape, hsk, hV]
      cases fs with
      | nil =>
        rw [show renderObjTail ([] : List (List Char × Json)) ++ t = rbrace :: t from rfl,
          skipWs_cons_of rbrace _ (by decide)]
        simp +decide
      | cons g gs =>
        have hg : renderObjTail (g :: gs) ++ t =
            ',' :: ((renderField g ++ renderObjTail gs) ++ t) := by
          show (',' :: (renderField g ++ renderObjTail gs)) ++ t = _
          simp
        have hfg : 0 < (renderField g).length := by
          obtain ⟨k2, v2⟩ := g
          rw [show renderField (k2, v2) =
            dquote :: ((escapeStr k2 ++ [dquote, ':']) ++ render v2) from rfl]
          simp
        have hstep : (renderObjTail (g :: gs)).length =
            1 + (renderField g ++ renderObjTail gs).length := by
          show (',' :: (renderField g ++ renderObjTail gs)).length = _
          simp
          omega
        have hF := ihF g gs t (by omega)
        rw [hg, skipWs_cons_of ',' _ (by decide)]
        simp only [List.append_assoc] at hF
        simp [hF]

/-- Parsing a rendered value succeeds and returns that value. -/
theorem jsonParse_render (v : Json) : jsonParse (render v) = some v := by
  unfold jsonParse
  have h := (parse_render_aux ((render v).length + 1)).1 v [] (by omega)
  rw [List.append_nil] at h
  rw [h]
  rfl

/-- A leading whitespace character does not change the result of the value
parser. -/
theorem parseValue_cons_ws (f : Nat) (c : Char) (l : List Char)
    (h : isWs c = true) : parseValue f (c :: l) = parseValue f l := by
  cases f with
  | zero => rfl
  | succ f =>
    have hsk : skipWs (c :: l) = skipWs l := by
      simp [skipWs, List.dropWhile_cons, h]
    conv_lhs => unfold parseValue
    conv_rhs => unfold parseValue
    rw [hsk]

/-- Parsing a rendered value wrapped in single newlines succeeds and returns
that value. -/
theorem jsonParse_nl (v : Json) :
    jsonParse ('\n' :: (render v ++ ['\n'])) = some v := by
  unfold jsonParse
  rw [parseValue_cons_ws _ '\n' _ (by decide)]
  have h := (parse_render_aux (('\n' :: (render v ++ ['\n'])).length + 1)).1 v ['\n']
    (by simp; omega)
  rw [h]
  rfl

/-- Trimming is the identity on a text whose first and last characters are
not whitespace. -/
theorem jsTrim_id_snoc (c d : Char) (l : List Char) (hc : isWs c = false)
    (hd : isWs d = false) : jsTrim (c :: (l ++ [d])) = c :: (l ++ [d]) := by
  unfold jsTrim
  rw [show List.dropWhile isWs (c :: (l ++ [d])) = c :: (l ++ [d]) from by
    simp [List.dropWhile_cons, hc]]
  rw [show (c :: (l ++ [d])).reverse = d :: (l.reverse ++ [c]) from by simp]
  rw [show List.dropWhile isWs (d :: (l.reverse ++ [c])) = d :: (l.reverse ++ [c]) from by
    simp [List.dropWhile_cons, hd]]
  simp

/-- The rendered tail of an object ends with the closing brace. -/
theorem renderObjTail_snoc : ∀ fs : List (List Char × Json),
    ∃ z, renderObjTail fs = z ++ [rbrace]
  | [] => ⟨[], rfl⟩
  | g :: gs => by
    obtain ⟨z, hz⟩ := renderObjTail_snoc gs
    refine ⟨',' :: (renderField g ++ z), ?_⟩
    show ',' :: (renderField g ++ renderObjTail gs) = _
    rw [hz]
    simp

/-- A rendered object is an opening brace, a middle part, and a closing
brace. -/
theorem render_obj_shape (fs : List (List Char × Json)) :
    ∃ x, render (Json.obj fs) = lbrace :: (x ++ [rbrace]) := by
  cases fs with
  | nil => exact ⟨[], rfl⟩
  | cons kv fs' =>
    obtain ⟨z, hz⟩ := renderObjTail_snoc fs'
    refine ⟨renderField kv ++ z, ?_⟩
    show lbrace :: (renderField kv ++ renderObjTail fs') = _
    rw [hz]
    simp

/-- A text that does not start with a backtick does not start with a code
fence. -/
theorem startsTicks_of_head (c : Char) (l : List Char) (hc : ¬ c = tick) :
    startsTicks (c :: l) = false := by
  cases l with
  | nil => rfl
  | cons c2 l2 =>
    cases l2 with
    | nil => rfl
    | cons c3 l3 => simp [startsTicks, hc]

/-- The secondary decode of an unfenced rendered object parses it directly. -/
theorem decodeContent_unfenced_obj (fs : List (List Char × Json)) :
    decodeContent (render (Json.obj fs)) = ContentDecode.ok (Json.obj fs) := by
  obtain ⟨x, hx⟩ := render_obj_shape fs
  have hst : startsTicks (lbrace :: (x ++ [rbrace])) = false :=
    startsTicks_of_head _ _ (by decide)
  have hst2 : startsTicks (render (Json.obj fs)) = false := by rw [hx]; exact hst
  unfold decodeContent
  rw [hx, jsTrim_id_snoc lbrace rbrace x (by decide) (by decide), ← hx]
  simp only [hst2, Bool.false_eq_true, if_false, jsonParse_render]

/-- The secondary decode of a fenced rendered object containing no triple
backtick strips the fence and the `json` tag and parses the original
object. -/
theorem decodeContent_fenced_obj (fs : List (List Char × Json))
    (h : hasTripleTick (render (Json.obj fs)) = false) :
    decodeContent (fence (render (Json.obj fs))) = ContentDecode.ok (Json.obj fs) := by
  have hshape : fence (render (Json.obj fs)) =
      tick :: ((tick :: tick :: ("json\n".toList ++ ((render (Json.obj fs) ++ ['\n']) ++ [tick, tick]))) ++ [tick]) := by
    simp [fence]
  have htrim : jsTrim (fence (render (Json.obj fs))) = fence (render (Json.obj fs)) := by
    rw [hshape, jsTrim_id_snoc tick tick _ (by decide) (by decide)]
  have hstart : startsTicks (fence (render (Json.obj fs))) = true := by
    rw [hshape]
    rfl
  have hm : hasTripleTick (("json\n".toList ++ (render (Json.obj fs) ++ ['\n'])) ++ [tick, tick]) = false := by
    have h1 : hasTripleTick (render (Json.obj fs) ++ ['\n', tick, tick]) = false :=
      hasTriple_append_guard _ h
    have h2 : ("json\n".toList ++ (render (Json.obj fs) ++ ['\n'])) ++ [tick, tick] =
        'j' :: 's' :: 'o' :: 'n' :: '\n' :: (render (Json.obj fs) ++ ['\n', tick, tick]) := by
      simp
    rw [h2]
    refine hasTriple_cons_of _ _ (by decide) ?_
    refine hasTriple_cons_of _ _ (by decide) ?_
    refine hasTriple_cons_of _ _ (by decide) ?_
    refine hasTriple_cons_of _ _ (by decide) ?_
    exact hasTriple_cons_of _ _ (by decide) h1
  have hsplit : splitTicks (fence (render (Json.obj fs))) [] =
      [[], "json\n".toList ++ (render (Json.obj fs) ++ ['\n']), []] := by
    have hff : fence (render (Json.obj fs)) =
        tick :: tick :: tick ::
          (("json\n".toList ++ (render (Json.obj fs) ++ ['\n'])) ++
            (tick :: tick :: tick :: [])) := by
      simp [fence]
    rw [hff]
    have hfire : splitTicks (tick :: tick :: tick ::
        (("json\n".toList ++ (render (Json.obj fs) ++ ['\n'])) ++
          (tick :: tick :: tick :: []))) [] =
        [].reverse :: splitTicks
          (("json\n".toList ++ (render (Json.obj fs) ++ ['\n'])) ++
            (tick :: tick :: tick :: [])) [] := by
      conv_lhs => unfold splitTicks
      rw [if_pos (by decide)]
    rw [hfire, splitTicks_after_sep _ [] [] hm]
    simp
    rfl
  have hget : ([[], "json\n".toList ++ (render (Json.obj fs) ++ ['\n']), []]).get? 1 =
      some ("json\n".toList ++ (render (Json.obj fs) ++ ['\n'])) := rfl
  have hpref : List.isPrefixOf ("json".toList)
      ("json\n".toList ++ (render (Json.obj fs) ++ ['\n'])) = true := by
    simp [List.isPrefixOf]
  have hdrop : ("json\n".toList ++ (render (Json.obj fs) ++ ['\n'])).drop 4 =
      '\n' :: (render (Json.obj fs) ++ ['\n']) := rfl
  unfold decodeContent
  simp only [htrim, hstart, if_true, hsplit, hget, hpref, hdrop, jsonParse_nl]

/-- Splitting a text into lines never yields an empty list of lines. -/
theorem splitLines_ne_nil (l : List Char) : splitLines l ≠ [] := by
  induction l with
  | nil => simp [splitLines]
  | cons c rest ih =>
    unfold splitLines
    by_cases h : c = '\n'
    · simp [h]
    · rw [if_neg h]
      cases hs : splitLines rest with
      | nil => exact absurd hs ih
      | cons a as => simp

/-- A newline-free text is its own single line. -/
theorem splitLines_no_nl (l : List Char) (h : ¬ '\n' ∈ l) : splitLines l = [l] := by
  induction l with
  | nil => rfl
  | cons c rest ih =>
    have hc : ¬ c = '\n' := fun he => h (he ▸ List.mem_cons_self c rest)
    have hr : ¬ '\n' ∈ rest := fun hm => h (List.mem_cons_of_mem c hm)
    unfold splitLines
    rw [if_neg hc, ih hr]

/-- Splitting after a newline-free first piece peels that piece off as the
first line. -/
theorem splitLines_append (p rest : List Char) (hp : ¬ '\n' ∈ p) :
    splitLines (p ++ '\n' :: rest) = p :: splitLines rest := by
  induction p with
  | nil => simp [splitLines]
  | cons c p' ih =>
    have hc : ¬ c = '\n' := fun he => hp (he ▸ List.mem_cons_self c p')
    have hp' : ¬ '\n' ∈ p' := fun hm => hp (List.mem_cons_of_mem c hm)
    show splitLines (c :: (p' ++ '\n' :: rest)) = (c :: p') :: splitLines rest
    conv_lhs => unfold splitLines
    rw [if_neg hc, ih hp']

/-- Joining newline-free pieces with newlines and splitting into lines gives
the pieces back. -/
theorem splitLines_joinWith (parts : List (List Char)) (hne : parts ≠ [])
    (hnl : ∀ p ∈ parts, ¬ '\n' ∈ p) :
    splitLines (joinWith ("\n".toList) parts) = parts := by
  induction parts with
  | nil => exact absurd rfl hne
  | cons p ps ih =>
    cases ps with
    | nil =>
      show splitLines p = [p]
      exact splitLines_no_nl p (hnl p (List.mem_cons_self p []))
    | cons q qs =>
      have hstep : joinWith ("\n".toList) (p :: q :: qs) =
          p ++ '\n' :: joinWith ("\n".toList) (q :: qs) := by
        show p ++ ("\n".toList) ++ joinWith ("\n".toList) (q :: qs) = _
        simp
      rw [hstep,
        splitLines_append p _ (hnl p (List.mem_cons_self p (q :: qs))),
        ih (by simp) (fun r hr => hnl r (List.mem_cons_of_mem p hr))]

/-- C9 counterexample: a profile field holding an empty array is truthy, so
the filter keeps it, yet its string coercion is empty — the rendering is the
line `skills: ` with nothing after the colon. -/
theorem C9_counterexample_empty_value_line :
    profileSummary [(("skills".toList), Json.arr [])] = ("skills: ".toList) ∧
    jsTruthy (Json.arr []) = true ∧
    ("skills: ".toList) = ("skills".toList) ++ (": ".toList) ++ [] ∧
    splitLines (profileSummary [(("skills".toList), Json.arr [])]) =
      [("skills: ".toList)] :=
  ⟨rfl, rfl, rfl, rfl⟩

/-- C9 amended: when every retained field has a newline-free key and a
truthy value whose string coercion is non-empty and newline-free, every line
of the rendered profile is `key: value` for a retained field, with a
non-empty value part; truthy values with empty coercions (such as the empty
array) and embedded newlines are the only exceptions. -/
theorem C9_profile_summary_lines (entries : List (List Char × Json))
    (hkeys : ∀ p ∈ entries, ¬ '\n' ∈ p.1)
    (hvals : ∀ p ∈ entries, jsTruthy p.2 = true →
      jsToString p.2 ≠ [] ∧ ¬ '\n' ∈ jsToString p.2) :
    ∀ l ∈ splitLines (profileSummary entries),
      l = [] ∨ ∃ k v, (k, v) ∈ entries ∧ jsTruthy v = true ∧
        l = k ++ (": ".toList) ++ jsToString v ∧ jsToString v ≠ [] := by
  intro l hl
  rcases hparts : (entries.filter (fun p => jsTruthy p.2)).map entryLine with _ | ⟨p0, ps⟩
  · left
    unfold profileSummary at hl
    rw [hparts] at hl
    simp [splitLines, joinWith] at hl
    exact hl
  · right
    have hnl : ∀ q ∈ (entries.filter (fun p => jsTruthy p.2)).map entryLine,
        ¬ '\n' ∈ q := by
      intro q hq
      rcases List.mem_map.mp hq with ⟨⟨k, v⟩, hmem, rfl⟩
      have hment := List.mem_of_mem_filter hmem
      have htr : jsTruthy v = true := by
        have := List.of_mem_filter hmem
        simpa using this
      have hk := hkeys (k, v) hment
      have hv := (hvals (k, v) hment htr).2
      unfold entryLine
      intro hm
      rcases List.mem_append.mp hm with hm1 | hm2
      · rcases List.mem_append.mp hm1 with hma | hmb
        · exact hk hma
        · simp at hmb
      · exact hv hm2
    unfold profileSummary at hl
    rw [splitLines_joinWith _ (by rw [hparts]; simp) hnl] at hl
    rcases List.mem_map.mp hl with ⟨⟨k, v⟩, hmem, rfl⟩
    have hment := List.mem_of_mem_filter hmem
    have htr : jsTruthy v = true := by
      have := List.of_mem_filter hmem
      simpa using this
    exact ⟨k, v, hment, htr, rfl, (hvals (k, v) hment htr).1⟩

/-- Witness for C9 amended at a concrete profile with one non-empty string
field: its single line is the expected `key: value` form. -/
theorem C9_profile_summary_lines_witness :
    ("jobTitle: Marketing Manager".toList) = [] ∨
    ∃ k v, (k, v) ∈ [(("jobTitle".toList),
        Json.str ("Marketing Manager".toList))] ∧ jsTruthy v = true ∧
      ("jobTitle: Marketing Manager".toList) =
        k ++ (": ".toList) ++ jsToString v ∧ jsToString v ≠ [] :=
  C9_profile_summary_lines
    [(("jobTitle".toList), Json.str ("Marketing Manager".toList))]
    (by decide) (by decide)
    ("jobTitle: Marketing Manager".toList) (by decide)

/-- On a message with no tool call and non-empty content, the decode phase
is the secondary content decode followed by validation. -/
theorem recDecodePhase_content (c : List Char) (hne : c.isEmpty = false) :
    recDecodePhase (some { tool_calls := [], content := some c }) =
      (match decodeContent c with
       | ContentDecode.ok v => recValidate v true
       | ContentDecode.parseFail =>
         { status := 500, body := RespBody.errObj noRecsMsg, modelCalled := true,
           secondaryAttempted := true, decoded := none }
       | ContentDecode.typeError =>
         { status := 500, body := RespBody.errObj typeErrorMsg, modelCalled := true,
           secondaryAttempted := true, decoded := none }) := by
  unfold recDecodePhase
  rw [show firstToolCall (some { tool_calls := [], content := some c }) = none from rfl]
  simp [hne]

/-- The whole recommend pipeline on a content-only response world reduces to
the secondary decode and validation. -/
theorem recommendHandler_contentWorld (c : List Char) (hne : c.isEmpty = false) :
    recommendHandler (contentWorld c) =
      (match decodeContent c with
       | ContentDecode.ok v => recValidate v true
       | ContentDecode.parseFail =>
         { status := 500, body := RespBody.errObj noRecsMsg, modelCalled := true,
           secondaryAttempted := true, decoded := none }
       | ContentDecode.typeError =>
         { status := 500, body := RespBody.errObj typeErrorMsg, modelCalled := true,
           secondaryAttempted := true, decoded := none }) := by
  rw [recommendHandler_model (contentWorld c) [] (buildCatalogue [sampleRow]) rfl rfl rfl rfl]
  show recDecodePhase (some { tool_calls := [], content := some c }) = _
  exact recDecodePhase_content c hne

/-- C5 counterexample: a recommendation set whose rendering contains a
triple backtick decodes successfully unfenced but fails when fenced — the
split at the first interior fence truncates the JSON — so fenced and
unfenced content are not decoded alike. -/
theorem C5_counterexample_interior_backticks :
    (recommendHandler (contentWorld (render cxTickSet))).status = 200 ∧
    (recommendHandler (contentWorld (render cxTickSet))).body =
      RespBody.jsonOut cxTickSet ∧
    (recommendHandler (contentWorld (fence (render cxTickSet)))).status = 500 ∧
    (recommendHandler (contentWorld (fence (render cxTickSet)))).body =
      RespBody.errObj noRecsMsg :=
  ⟨rfl, rfl, rfl, rfl⟩

/-- C5 amended: for a recommendation-set object whose compact rendering
contains no triple backtick, the synthesis decode on the fenced rendering
succeeds and produces the same set as on the unfenced rendering. -/
theorem C5_fenced_and_unfenced_agree (fields : List (List Char × Json))
    (rs : List Json)
    (hrecs : jget (Json.obj fields) recsKey = some (Json.arr rs))
    (hticks : hasTripleTick (render (Json.obj fields)) = false) :
    recommendHandler (contentWorld (render (Json.obj fields))) =
      { status := 200, body := RespBody.jsonOut (Json.obj fields),
        modelCalled := true, secondaryAttempted := true,
        decoded := some (Json.obj fields) } ∧
    recommendHandler (contentWorld (fence (render (Json.obj fields)))) =
      { status := 200, body := RespBody.jsonOut (Json.obj fields),
        modelCalled := true, secondaryAttempted := true,
        decoded := some (Json.obj fields) } := by
  have hvalid : validRecs (Json.obj fields) = true := by
    unfold validRecs
    rw [hrecs]
    rfl
  have hne1 : (render (Json.obj fields)).isEmpty = false := by
    obtain ⟨c, cs, hcx, _, _⟩ := render_head (Json.obj fields)
    rw [hcx]
    rfl
  have hne2 : (fence (render (Json.obj fields))).isEmpty = false := by
    simp [fence]
  constructor
  · rw [recommendHandler_contentWorld _ hne1, decodeContent_unfenced_obj fields]
    show recValidate (Json.obj fields) true = _
    unfold recValidate
    rw [if_pos hvalid]
  · rw [recommendHandler_contentWorld _ hne2, decodeContent_fenced_obj fields hticks]
    show recValidate (Json.obj fields) true = _
    unfold recValidate
    rw [if_pos hvalid]

/-- Witness for C5 amended at a concrete backtick-free payload. -/
theorem C5_fenced_and_unfenced_agree_witness :
    recommendHandler (contentWorld (render (Json.obj okFields))) =
      { status := 200, body := RespBody.jsonOut (Json.obj okFields),
        modelCalled := true, secondaryAttempted := true,
        decoded := some (Json.obj okFields) } ∧
    recommendHandler (contentWorld (fence (render (Json.obj okFields)))) =
      { status := 200, body := RespBody.jsonOut (Json.obj okFields),
        modelCalled := true, secondaryAttempted := true,
        decoded := some (Json.obj okFields) } :=
  C5_fenced_and_unfenced_agree okFields
    [Json.str ("Brand Leadership".toList)] rfl (by decide)

end FFF
